import Mathlib

/-!
# Dashboard screen: session fetching and the derived current session

A shallow embedding of `src/pages/Dashboard.js`:

* `currentSession` (lines 53-59): the derived value that turns the carousel
  position into the session the position points to;
* `fetchSessions` (lines 72-113): the role-dependent read of the `sessions`
  table and the three pieces of screen state it writes.

JavaScript numbers are modelled by `JSNumber`: a finite double is a rational
number, and `Math.round`, `Math.max`, `Math.min` and the subtraction
`sessions.length - 1` are exact on the values that occur here, so the finite
case is carried by `ℚ` with no rounding error. The two zeros are identified:
`Math.max(-0, 0)` is `+0` and both zeros name the array property `"0"`.
-/

namespace Dashboard

/-! ## Data model -/

/-- One row of the `sessions` table as the dashboard reads it. The tutor view
selects `student_id` and the student view selects `tutor_id`; the column that
was not selected is absent from the row. -/
structure SessionRecord where
  session_id : Nat
  start_time : String
  end_time : String
  tutor_id : Option Nat
  student_id : Option Nat
  subject : String
  session_date : String
  deriving DecidableEq

/-- A JavaScript Number: `NaN`, the two infinities, or a finite value. -/
inductive JSNumber where
  | nan
  | negInf
  | fin (q : ℚ)
  | posInf
  deriving DecidableEq

namespace Math

/-- `Math.round(x)`: the integer nearest to `x`, ties going towards `+∞`, that
is `floor(x + 0.5)` computed exactly; `NaN` and the infinities are returned
unchanged. -/
def round : JSNumber → JSNumber
  | .fin q => .fin ((⌊q + 1 / 2⌋ : ℤ) : ℚ)
  | x => x

/-- `Math.max(a, b)`: `NaN` if either argument is `NaN`, otherwise the larger
argument. -/
def max : JSNumber → JSNumber → JSNumber
  | .nan, _ => .nan
  | _, .nan => .nan
  | .posInf, _ => .posInf
  | _, .posInf => .posInf
  | .negInf, b => b
  | a, .negInf => a
  | .fin a, .fin b => .fin (if a ≤ b then b else a)

/-- `Math.min(a, b)`: `NaN` if either argument is `NaN`, otherwise the smaller
argument. -/
def min : JSNumber → JSNumber → JSNumber
  | .nan, _ => .nan
  | _, .nan => .nan
  | .negInf, _ => .negInf
  | _, .negInf => .negInf
  | .posInf, b => b
  | a, .posInf => a
  | .fin a, .fin b => .fin (if a ≤ b then a else b)

end Math

/-- The expression `sessions.length - 1`. -/
def lengthMinusOne {α : Type} (sessions : List α) : JSNumber :=
  .fin ((sessions.length : ℚ) - 1)

/-- The property read `sessions[index]` on an array: an element when `index`
is an integer with `0 ≤ index < sessions.length`, and `undefined` (here
`none`) for every other number, `NaN` and `-1` included. -/
def arrayGet {α : Type} (sessions : List α) : JSNumber → Option α
  | .fin q => if q.den = 1 ∧ 0 ≤ q.num then sessions[q.num.toNat]? else none
  | _ => none

/-- The local constant `index` of the `currentSession` derivation
(lines 54-57): round, then clamp below by `0`, then clamp above by
`sessions.length - 1`. -/
def currentSession.index {α : Type} (sessions : List α) (currentIndex : JSNumber) :
    JSNumber :=
  Math.min (Math.max (Math.round currentIndex) (.fin 0)) (lengthMinusOne sessions)

/-- The derived value `currentSession` (lines 53-59): `sessions[index]`. -/
def currentSession {α : Type} (sessions : List α) (currentIndex : JSNumber) : Option α :=
  arrayGet sessions (currentSession.index sessions currentIndex)

/-! ## The selector as the specification words it -/

/-- The specification's `clamp(x, lo, hi)` on integers. -/
def clamp (x lo hi : ℤ) : ℤ :=
  if x < lo then lo else if hi < x then hi else x

/-- The clamp-then-round order of the two steps, which the code does not use:
`Math.round(Math.min(Math.max(position, 0), sessions.length - 1))`. -/
def clampThenRound {α : Type} (sessions : List α) (currentIndex : JSNumber) : JSNumber :=
  Math.round (Math.min (Math.max currentIndex (.fin 0)) (lengthMinusOne sessions))

/-! ## Session fetching -/

/-- A JavaScript value, as far as the route parameters `role_id` and `user_id`
are concerned. -/
inductive JSValue where
  | undefined
  | null
  | boolean (b : Bool)
  | number (n : JSNumber)
  | string (s : String)
  deriving DecidableEq

/-- Strict equality `a === b`: the same type and the same value, except that
`NaN` equals nothing, itself included. -/
def JSValue.strictEquals : JSValue → JSValue → Bool
  | .number .nan, _ => false
  | _, .number .nan => false
  | a, b => decide (a = b)

/-- The number literal `1`. -/
def JSValue.one : JSValue := .number (.fin 1)

/-- The read `supabase.from(table).select(select).eq(eqColumn, eqValue)`. -/
structure Query where
  table : String
  select : String
  eqColumn : String
  eqValue : JSValue
  deriving DecidableEq

/-- The failure object of the store; only `message` is read. -/
structure StoreError where
  message : String
  deriving DecidableEq

/-- The object `{ data, error }` the store resolves to; either field may be
`null`. -/
structure Response where
  data : Option (List SessionRecord)
  error : Option StoreError
  deriving DecidableEq

/-- Where in lines 89-92 an exception is raised: while the builder chain
`supabase.from(..).select(..).eq(..)` is evaluated, before any read has been
issued, or after the read has been issued (the awaited promise rejects, or its
result cannot be destructured). -/
inductive ThrowSite where
  | building
  | awaiting
  deriving DecidableEq

/-- How lines 89-92 end inside the `try` block: the read resolves to a
response, or an exception carrying a message is thrown at one of the two
sites. These lines are the only step of the block that can throw; the state
setters and the logging calls cannot. -/
inductive Completion where
  | returned (response : Response)
  | threw (site : ThrowSite) (message : String)
  deriving DecidableEq

/-- The three pieces of screen state `fetchSessions` writes (lines 47-49). -/
structure DashboardState where
  loading : Bool
  sessions : List SessionRecord
  error : Option String
  deriving DecidableEq

/-- The initial state of the screen: `useState(false)`, `useState([])`,
`useState(null)`. -/
def DashboardState.initial : DashboardState :=
  { loading := false, sessions := [], error := none }

/-- What `fetchSessions` does to the world, in program order: the three state
setters and the one read it issues against the store. -/
inductive Action where
  | setLoading (b : Bool)
  | setSessions (data : List SessionRecord)
  | setError (e : Option String)
  | select (q : Query)
  deriving DecidableEq

/-- The effect of one action on the screen state; issuing the read changes
nothing. -/
def Action.apply (st : DashboardState) : Action → DashboardState
  | .setLoading b => { st with loading := b }
  | .setSessions data => { st with sessions := data }
  | .setError e => { st with error := e }
  | .select _ => st

/-- The state after a sequence of actions. -/
def run (st : DashboardState) (actions : List Action) : DashboardState :=
  actions.foldl Action.apply st

/-- Line 77: `const isStudent = role_id !== 1`. -/
def fetchSessions.isStudent (role_id : JSValue) : Bool :=
  !(role_id.strictEquals JSValue.one)

/-- Lines 80-82: the field list, by role. -/
def fetchSessions.selectFields (role_id : JSValue) : String :=
  if fetchSessions.isStudent role_id then
    "session_id, start_time, end_time, tutor_id, subject, session_date"
  else
    "session_id, start_time, end_time, student_id, subject, session_date"

/-- Line 87: the filter column, by role. -/
def fetchSessions.filterColumn (role_id : JSValue) : String :=
  if fetchSessions.isStudent role_id then "student_id" else "tutor_id"

/-- Lines 89-92: the read that is issued. -/
def fetchSessions.query (user_id role_id : JSValue) : Query :=
  { table := "sessions", select := fetchSessions.selectFields role_id,
    eqColumn := fetchSessions.filterColumn role_id, eqValue := user_id }

/-- Lines 94-109: what follows the awaited read. A response with an error sets
the error message and returns; otherwise truthy data (any array, the empty one
included) replaces the session list and `null` data replaces it by `[]`; an
exception is caught and its message set as the error. -/
def fetchSessions.afterAwait : Completion → List Action
  | .returned { data := _, error := some e } => [.setError (some e.message)]
  | .returned { data := some data, error := none } => [.setSessions data]
  | .returned { data := none, error := none } => [.setSessions []]
  | .threw _ message => [.setError (some message)]

/-- Lines 89-92: the read is issued unless the builder chain throws first, in
which case control goes to the `catch` block with nothing sent to the store. -/
def fetchSessions.issueRead (q : Query) : Completion → List Action
  | .threw .building _ => []
  | _ => [.select q]

/-- The actions of one call `fetchSessions(role_id)` (lines 72-113) against a
store: the two setters that open the `try` block, the read (when it gets
issued), what follows it, and the `finally` block. -/
def fetchSessions.actions (store : Query → Completion) (user_id role_id : JSValue) :
    List Action :=
  [.setLoading true, .setError none]
    ++ fetchSessions.issueRead (fetchSessions.query user_id role_id)
        (store (fetchSessions.query user_id role_id))
    ++ fetchSessions.afterAwait (store (fetchSessions.query user_id role_id))
    ++ [.setLoading false]

/-- The screen state when `fetchSessions(role_id)` has finished. -/
def fetchSessions (store : Query → Completion) (user_id : JSValue) (st : DashboardState)
    (role_id : JSValue) : DashboardState :=
  run st (fetchSessions.actions store user_id role_id)

/-- The column names of a field list: the comma-separated items, blanks
dropped. -/
def columnsAux : List Char → List Char → List String
  | [], acc => [String.mk acc.reverse]
  | c :: cs, acc =>
    if c = ',' then String.mk acc.reverse :: columnsAux cs []
    else if c = ' ' then columnsAux cs acc
    else columnsAux cs (c :: acc)

/-- The column names a read selects. -/
def Query.columns (q : Query) : List String :=
  columnsAux q.select.data []

/-- The reads the actions issue. -/
def queriesOf : List Action → List Query
  | [] => []
  | .select q :: rest => q :: queriesOf rest
  | _ :: rest => queriesOf rest

/-- A store that answers every read the same way. -/
def constStore (c : Completion) : Query → Completion :=
  fun _ => c

/-! ## The two reads as the specification words them -/

/-- The tutor-shaped read. -/
def tutorQuery (user_id : JSValue) : Query :=
  { table := "sessions",
    select := "session_id, start_time, end_time, student_id, subject, session_date",
    eqColumn := "tutor_id", eqValue := user_id }

/-- The student-shaped read. -/
def studentQuery (user_id : JSValue) : Query :=
  { table := "sessions",
    select := "session_id, start_time, end_time, tutor_id, subject, session_date",
    eqColumn := "student_id", eqValue := user_id }

/-! ## Sample data -/

/-- A tutor-view row. -/
def sampleRow (n : Nat) : SessionRecord :=
  { session_id := n, start_time := "09:00", end_time := "10:00", tutor_id := none,
    student_id := some 7, subject := "Math", session_date := "2025-03-01" }

/-- Three sessions. -/
def three : List SessionRecord := [sampleRow 0, sampleRow 1, sampleRow 2]

/-- Five sessions. -/
def five : List SessionRecord :=
  [sampleRow 0, sampleRow 1, sampleRow 2, sampleRow 3, sampleRow 4]

/-- The store that reports the failure "network unreachable". -/
def unreachableStore : Query → Completion :=
  constStore (.returned { data := none, error := some { message := "network unreachable" } })

/-- A state left by an earlier fetch: three sessions and a stale error. -/
def stale : DashboardState :=
  { loading := false, sessions := three, error := some "old" }

/-- The store of the tutor scenario: two tutor-view rows. -/
def twoRows : Query → Completion :=
  constStore (.returned { data := some [sampleRow 11, sampleRow 10], error := none })

/-- A store whose read, once issued, throws. -/
def throwingStore : Query → Completion :=
  constStore (.threw .awaiting "network unreachable")

/-- A store whose builder chain throws before any read is issued. -/
def brokenClient : Query → Completion :=
  constStore (.threw .building "supabase is not configured")

/-! ## Facts about the selector -/

theorem clampQ (r n : ℤ) (hn : 0 ≤ n) :
    (if (if (r : ℚ) ≤ 0 then (0 : ℚ) else r) ≤ (n : ℚ) then (if (r : ℚ) ≤ 0 then (0 : ℚ) else r)
      else (n : ℚ)) = ((clamp r 0 n : ℤ) : ℚ) := by
  have hnq : (0 : ℚ) ≤ (n : ℚ) := by exact_mod_cast hn
  unfold clamp
  by_cases h1 : r ≤ 0
  · have h1q : (r : ℚ) ≤ 0 := by exact_mod_cast h1
    rw [if_pos h1q, if_pos hnq]
    by_cases h2 : r < 0
    · simp [h2]
    · have : r = 0 := by omega
      subst this
      have : ¬ (n < 0) := by omega
      simp [this]
  · have h1q : ¬ (r : ℚ) ≤ 0 := by exact_mod_cast h1
    have h2 : ¬ r < 0 := by omega
    rw [if_neg h1q, if_neg h2]
    by_cases h3 : r ≤ n
    · have h3q : (r : ℚ) ≤ n := by exact_mod_cast h3
      have : ¬ n < r := by omega
      rw [if_pos h3q, if_neg this]
    · have h3q : ¬ (r : ℚ) ≤ n := by exact_mod_cast h3
      have : n < r := by omega
      rw [if_neg h3q, if_pos this]

theorem index_fin {α : Type} (S : List α) (q : ℚ) (hS : S ≠ []) :
    currentSession.index S (.fin q)
      = .fin ((clamp ⌊q + 1 / 2⌋ 0 ((S.length : ℤ) - 1) : ℤ) : ℚ) := by
  have hlen : (0 : ℤ) ≤ (S.length : ℤ) - 1 := by
    have := List.length_pos.mpr hS
    omega
  have hc : ((S.length : ℚ) - 1) = (((S.length : ℤ) - 1 : ℤ) : ℚ) := by push_cast; rfl
  simp only [currentSession.index, Math.round, Math.max, Math.min, lengthMinusOne]
  rw [hc, clampQ _ _ hlen]

theorem arrayGet_int {α : Type} (S : List α) (i : ℤ) (h : 0 ≤ i) :
   arrayGet S (.fin (i : ℚ)) = S[i.toNat]? := by
  simp [arrayGet, h]

theorem clamp_bounds (x n : ℤ) (hn : 0 ≤ n) : 0 ≤ clamp x 0 n ∧ clamp x 0 n ≤ n := by
  unfold clamp
  split_ifs <;> omega

theorem clamp_mono (x y n : ℤ) (hn : 0 ≤ n) (h : x ≤ y) : clamp x 0 n ≤ clamp y 0 n := by
  unfold clamp
  split_ifs <;> omega

theorem length_sub_one_nonneg {α : Type} (S : List α) (hS : S ≠ []) :
    (0 : ℤ) ≤ (S.length : ℤ) - 1 := by
  have := List.length_pos.mpr hS
  omega

theorem floor_half (n : ℤ) : ⌊(n : ℚ) + 1 / 2⌋ = n := by
  rw [Int.floor_eq_iff]
  constructor <;> linarith

theorem clampThenRound_fin {α : Type} (S : List α) (q : ℚ) (hS : S ≠ []) :
    clampThenRound S (.fin q)
      = .fin ((clamp ⌊q + 1 / 2⌋ 0 ((S.length : ℤ) - 1) : ℤ) : ℚ) := by
  have hlen := length_sub_one_nonneg S hS
  have hc : ((S.length : ℚ) - 1) = (((S.length : ℤ) - 1 : ℤ) : ℚ) := by push_cast; rfl
  simp only [clampThenRound, Math.round, Math.max, Math.min, lengthMinusOne]
  rw [hc]
  generalize ((S.length : ℤ) - 1) = n at hlen
  have hnq : (0 : ℚ) ≤ (n : ℚ) := by exact_mod_cast hlen
  congr 2
  unfold clamp
  by_cases h1 : q ≤ 0
  · rw [if_pos h1, if_pos hnq]
    have h0 : ⌊(0 : ℚ) + 1 / 2⌋ = 0 := by simpa using floor_half 0
    have hle : ⌊q + 1 / 2⌋ ≤ 0 := by
      rw [← h0]; exact Int.floor_mono (by linarith)
    rw [h0]
    split_ifs <;> omega
  · rw [if_neg h1]
    have hge : 0 ≤ ⌊q + 1 / 2⌋ := by
      rw [Int.le_floor]; push_cast; linarith
    have hnlt : ¬ ⌊q + 1 / 2⌋ < 0 := by omega
    rw [if_neg hnlt]
    by_cases h2 : q ≤ n
    · rw [if_pos h2]
      have : ⌊q + 1 / 2⌋ ≤ n := by
        rw [← floor_half n]; exact Int.floor_mono (by linarith)
      rw [if_neg (by omega)]
    · rw [if_neg h2, floor_half]
      have : n ≤ ⌊q + 1 / 2⌋ := by
        rw [Int.le_floor]; linarith
      split_ifs <;> omega

theorem arrayGet_clamp {α : Type} (S : List α) (r : ℤ) (hS : S ≠ []) :
    ∃ h : (clamp r 0 ((S.length : ℤ) - 1)).toNat < S.length,
      arrayGet S (.fin ((clamp r 0 ((S.length : ℤ) - 1) : ℤ) : ℚ))
        = some (S[(clamp r 0 ((S.length : ℤ) - 1)).toNat]) := by
  obtain ⟨h0, h1⟩ := clamp_bounds r _ (length_sub_one_nonneg S hS)
  have hlt : (clamp r 0 ((S.length : ℤ) - 1)).toNat < S.length := by omega
  refine ⟨hlt, ?_⟩
  rw [arrayGet_int _ _ h0, List.getElem?_eq_getElem hlt]

/-- C1. For a non-empty session list and a finite position, the index the
derivation computes is `clamp(round(position), 0, length - 1)`, it lies between
`0` and `length - 1`, and the derived current session is the element of the
list at that index. -/
theorem currentSession_index_is_clamped_round {α : Type} (S : List α) (q : ℚ)
    (hS : S ≠ []) :
    currentSession.index S (.fin q)
        = .fin ((clamp (round q) 0 ((S.length : ℤ) - 1) : ℤ) : ℚ) ∧
      0 ≤ clamp (round q) 0 ((S.length : ℤ) - 1) ∧
      clamp (round q) 0 ((S.length : ℤ) - 1) ≤ (S.length : ℤ) - 1 ∧
      ∃ h : (clamp (round q) 0 ((S.length : ℤ) - 1)).toNat < S.length,
        currentSession S (.fin q)
          = some (S[(clamp (round q) 0 ((S.length : ℤ) - 1)).toNat]) := by
  have hb := clamp_bounds (round q) _ (length_sub_one_nonneg S hS)
  have hi := index_fin S q hS
  rw [← round_eq] at hi
  refine ⟨hi, hb.1, hb.2, ?_⟩
  obtain ⟨h, hg⟩ := arrayGet_clamp S (round q) hS
  exact ⟨h, by rw [currentSession, hi, hg]⟩

theorem three_ne_nil : three ≠ [] := by simp [three]

/-- The scenario of C1: three sessions, position 10, selected index 2. -/
theorem currentSession_index_is_clamped_round_witness :
    three ≠ [] ∧
    (currentSession.index three (.fin 10)
        = .fin ((clamp (round (10 : ℚ)) 0 ((three.length : ℤ) - 1) : ℤ) : ℚ) ∧
      0 ≤ clamp (round (10 : ℚ)) 0 ((three.length : ℤ) - 1) ∧
      clamp (round (10 : ℚ)) 0 ((three.length : ℤ) - 1) ≤ (three.length : ℤ) - 1 ∧
      ∃ h : (clamp (round (10 : ℚ)) 0 ((three.length : ℤ) - 1)).toNat < three.length,
        currentSession three (.fin 10)
          = some (three[(clamp (round (10 : ℚ)) 0 ((three.length : ℤ) - 1)).toNat])) :=
  ⟨three_ne_nil, currentSession_index_is_clamped_round three 10 three_ne_nil⟩

theorem scenario_three_sessions_position_ten :
    currentSession.index three (.fin 10) = .fin 2 ∧
      currentSession three (.fin 10) = some (sampleRow 2) := by
  have h : currentSession.index three (.fin 10) = .fin 2 := by
    simp [currentSession.index, Math.round, Math.max, Math.min, lengthMinusOne, three]
    norm_num
  refine ⟨h, ?_⟩
  rw [currentSession, h]
  simp [arrayGet, three]

theorem index_nil {α : Type} (p : JSNumber) :
    currentSession.index ([] : List α) p = if p = .nan then .nan else .fin (-1) := by
  cases p with
  | nan => rfl
  | negInf =>
    simp [currentSession.index, Math.round, Math.max, Math.min, lengthMinusOne]
  | posInf =>
    simp [currentSession.index, Math.round, Math.max, Math.min, lengthMinusOne]
  | fin q =>
    simp only [currentSession.index, Math.round, Math.max, Math.min, lengthMinusOne]
    have h : ¬ ((if ((⌊q + 1 / 2⌋ : ℤ) : ℚ) ≤ 0 then (0 : ℚ) else ⌊q + 1 / 2⌋)
        ≤ (([] : List α).length : ℚ) - 1) := by
      split_ifs with h1
      · norm_num
      · simp only [List.length_nil, Nat.cast_zero, not_le]
        linarith
    rw [if_neg h]
    simp

/-- C2, the counterexample: with no sessions and the position `NaN`, the index
the derivation computes is `NaN`, not `-1`. -/
theorem currentSession_empty_index_nan :
    currentSession.index ([] : List SessionRecord) JSNumber.nan = JSNumber.nan ∧
      ¬ currentSession.index ([] : List SessionRecord) JSNumber.nan = JSNumber.fin (-1) := by
  constructor
  · rfl
  · intro h
    cases h

/-- C2, amended. With no sessions the derivation computes the index `-1` for
every position other than `NaN` (finite or infinite) and `NaN` for the position
`NaN`; in every case the index names no element of any array, and the derived
current session is undefined. -/
theorem currentSession_empty_is_undefined (p : JSNumber) :
    currentSession.index ([] : List SessionRecord) p
        = (if p = JSNumber.nan then JSNumber.nan else JSNumber.fin (-1)) ∧
      (∀ T : List SessionRecord,
        arrayGet T (currentSession.index ([] : List SessionRecord) p) = none) ∧
      currentSession ([] : List SessionRecord) p = none := by
  have hi := @index_nil SessionRecord p
  have hT : ∀ T : List SessionRecord,
      arrayGet T (currentSession.index ([] : List SessionRecord) p) = none := by
    intro T
    rw [hi]
    split_ifs
    · rfl
    · simp [arrayGet]
  exact ⟨hi, hT, hT []⟩

theorem clamp_of_mem (k n : ℤ) (h0 : 0 ≤ k) (hk : k ≤ n) : clamp k 0 n = k := by
  unfold clamp
  split_ifs <;> omega

theorem index_of_floor {α : Type} (S : List α) (q : ℚ) (k : ℤ) (h0 : 0 ≤ k)
    (hk : k ≤ (S.length : ℤ) - 1) (hf : ⌊q + 1 / 2⌋ = k) :
    currentSession.index S (.fin q) = .fin (k : ℚ) ∧
      k.toNat < S.length ∧ currentSession S (.fin q) = S[k.toNat]? := by
  have hS : S ≠ [] := by
    intro h
    subst h
    simp at hk
    omega
  have hi := index_fin S q hS
  rw [hf, clamp_of_mem k _ h0 hk] at hi
  refine ⟨hi, by omega, ?_⟩
  rw [currentSession, hi, arrayGet_int _ _ h0]

/-- C3. Rounding in the derivation is round-half-up. For every session list
and every integer `k` with `0 ≤ k < length - 1`, the position `k + 1/2` selects
index `k + 1`, and every position strictly between `k - 1/2` and `k + 1/2`
selects index `k`; in both cases the derived session is the list element at the
selected index. -/
theorem currentSession_rounds_half_up {α : Type} (S : List α) (k : ℤ) (h0 : 0 ≤ k)
    (hk : k < (S.length : ℤ) - 1) :
    (currentSession.index S (.fin ((k : ℚ) + 1 / 2)) = .fin (((k + 1 : ℤ)) : ℚ) ∧
      (k + 1).toNat < S.length ∧
      currentSession S (.fin ((k : ℚ) + 1 / 2)) = S[(k + 1).toNat]?) ∧
    ∀ q : ℚ, (k : ℚ) - 1 / 2 < q → q < (k : ℚ) + 1 / 2 →
      currentSession.index S (.fin q) = .fin (k : ℚ) ∧
        k.toNat < S.length ∧ currentSession S (.fin q) = S[k.toNat]? := by
  constructor
  · apply index_of_floor S _ (k + 1) (by omega) (by omega)
    rw [Int.floor_eq_iff]
    push_cast
    constructor <;> linarith
  · intro q hlo hhi
    apply index_of_floor S q k h0 (by omega)
    rw [Int.floor_eq_iff]
    constructor <;> linarith

/-- The scenario of C3: five sessions, position 2.5, selected index 3. -/
theorem currentSession_rounds_half_up_witness :
    (0 : ℤ) ≤ 2 ∧ (2 : ℤ) < (five.length : ℤ) - 1 ∧
    ((currentSession.index five (.fin (((2 : ℤ) : ℚ) + 1 / 2)) = .fin (((2 + 1 : ℤ)) : ℚ) ∧
      ((2 : ℤ) + 1).toNat < five.length ∧
      currentSession five (.fin (((2 : ℤ) : ℚ) + 1 / 2)) = five[((2 : ℤ) + 1).toNat]?) ∧
    ∀ q : ℚ, ((2 : ℤ) : ℚ) - 1 / 2 < q → q < ((2 : ℤ) : ℚ) + 1 / 2 →
      currentSession.index five (.fin q) = .fin ((2 : ℤ) : ℚ) ∧
        (2 : ℤ).toNat < five.length ∧ currentSession five (.fin q) = five[(2 : ℤ).toNat]?) :=
  ⟨by decide, by decide, currentSession_rounds_half_up five 2 (by decide) (by decide)⟩

theorem scenario_five_sessions_position_two_and_a_half :
    currentSession.index five (.fin (5 / 2)) = .fin 3 ∧
      currentSession five (.fin (5 / 2)) = some (sampleRow 3) := by
  have h := index_of_floor five (5 / 2) 3 (by decide) (by decide) (by norm_num)
  refine ⟨by simpa using h.1, ?_⟩
  rw [h.2.2]
  simp [five]

/-- C10. For a non-empty session list and a finite position, rounding then
clamping (the code) and clamping then rounding compute the same index, so they
select the same session; and the selected index does not decrease when the
position increases. -/
theorem round_then_clamp_eq_clamp_then_round {α : Type} (S : List α) (q : ℚ)
    (hS : S ≠ []) :
    currentSession.index S (.fin q) = clampThenRound S (.fin q) ∧
      currentSession S (.fin q) = arrayGet S (clampThenRound S (.fin q)) ∧
      ∀ q' : ℚ, q ≤ q' →
        ∃ i j : ℤ, currentSession.index S (.fin q) = .fin (i : ℚ) ∧
          currentSession.index S (.fin q') = .fin (j : ℚ) ∧ i ≤ j := by
  have h1 : currentSession.index S (.fin q) = clampThenRound S (.fin q) := by
    rw [index_fin S q hS, clampThenRound_fin S q hS]
  refine ⟨h1, by rw [currentSession, h1], ?_⟩
  intro q' hq
  refine ⟨_, _, index_fin S q hS, index_fin S q' hS, ?_⟩
  exact clamp_mono _ _ _ (length_sub_one_nonneg S hS) (Int.floor_mono (by linarith))

/-- An instance of C10 on three sessions at position 7/4. -/
theorem round_then_clamp_eq_clamp_then_round_witness :
    three ≠ [] ∧
    (currentSession.index three (.fin (7 / 4)) = clampThenRound three (.fin (7 / 4)) ∧
      currentSession three (.fin (7 / 4)) = arrayGet three (clampThenRound three (.fin (7 / 4))) ∧
      ∀ q' : ℚ, (7 / 4 : ℚ) ≤ q' →
        ∃ i j : ℤ, currentSession.index three (.fin (7 / 4)) = .fin (i : ℚ) ∧
          currentSession.index three (.fin q') = .fin (j : ℚ) ∧ i ≤ j) :=
  ⟨three_ne_nil, round_then_clamp_eq_clamp_then_round three (7 / 4) three_ne_nil⟩

/-! ## Facts about session fetching -/

theorem run_issueRead (q : Query) (c : Completion) (st : DashboardState) :
    run st (fetchSessions.issueRead q c) = st := by
  rcases c with r | ⟨site, m⟩
  · rfl
  · cases site <;> rfl

theorem run_actions (store : Query → Completion) (user_id role_id : JSValue)
    (st : DashboardState) :
    fetchSessions store user_id st role_id
      = Action.apply
          (run { st with loading := true, error := none }
            (fetchSessions.afterAwait (store (fetchSessions.query user_id role_id))))
          (.setLoading false) := by
  have h := run_issueRead (fetchSessions.query user_id role_id)
    (store (fetchSessions.query user_id role_id)) { st with loading := true, error := none }
  simp only [run] at h
  simp [fetchSessions, fetchSessions.actions, run, Action.apply, List.foldl_append, h]

theorem fetch_failure (store : Query → Completion) (user_id role_id : JSValue)
    (st : DashboardState) (d : Option (List SessionRecord)) (m : String)
    (h : store (fetchSessions.query user_id role_id)
      = .returned { data := d, error := some { message := m } }) :
    fetchSessions store user_id st role_id
      = { loading := false, sessions := st.sessions, error := some m } := by
  rw [run_actions, h]
  simp [fetchSessions.afterAwait, run, Action.apply]

theorem fetch_threw (store : Query → Completion) (user_id role_id : JSValue)
    (st : DashboardState) (site : ThrowSite) (m : String)
    (h : store (fetchSessions.query user_id role_id) = .threw site m) :
    fetchSessions store user_id st role_id
      = { loading := false, sessions := st.sessions, error := some m } := by
  rw [run_actions, h]
  simp [fetchSessions.afterAwait, run, Action.apply]

theorem fetch_success (store : Query → Completion) (user_id role_id : JSValue)
    (st : DashboardState) (d : Option (List SessionRecord))
    (h : store (fetchSessions.query user_id role_id)
      = .returned { data := d, error := none }) :
    fetchSessions store user_id st role_id
      = { loading := false, sessions := d.getD [], error := none } := by
  rw [run_actions, h]
  cases d <;> simp [fetchSessions.afterAwait, run, Action.apply]

/-- C4. When the store reports a failure with message `m`, `fetchSessions`
ends with the error equal to `m`, the session list as it was before the fetch,
and loading false, whatever the prior state and the role identifier. -/
theorem fetchSessions_store_failure (store : Query → Completion)
    (user_id role_id : JSValue) (st : DashboardState) (d : Option (List SessionRecord))
    (m : String)
    (h : store (fetchSessions.query user_id role_id)
      = .returned { data := d, error := some { message := m } }) :
    (fetchSessions store user_id st role_id).error = some m ∧
      (fetchSessions store user_id st role_id).sessions = st.sessions ∧
      (fetchSessions store user_id st role_id).loading = false := by
  rw [fetch_failure store user_id role_id st d m h]
  exact ⟨rfl, rfl, rfl⟩

/-- The scenario of C4: the store reports "network unreachable". -/
theorem fetchSessions_store_failure_witness :
    unreachableStore (fetchSessions.query (.number (.fin 42)) JSValue.one)
        = .returned { data := none, error := some { message := "network unreachable" } } ∧
    ((fetchSessions unreachableStore (.number (.fin 42)) stale JSValue.one).error
        = some "network unreachable" ∧
      (fetchSessions unreachableStore (.number (.fin 42)) stale JSValue.one).sessions
        = stale.sessions ∧
      (fetchSessions unreachableStore (.number (.fin 42)) stale JSValue.one).loading = false) :=
  ⟨rfl, fetchSessions_store_failure unreachableStore (.number (.fin 42)) JSValue.one stale none
    "network unreachable" rfl⟩

/-- C5. When the store reports success, the session list is replaced
wholesale: by exactly the returned records when there are records, by the
empty list when there are none; the error ends as none and loading as false,
whatever the prior state was. -/
theorem fetchSessions_success_replaces_sessions (store : Query → Completion)
    (user_id role_id : JSValue) (st : DashboardState) (d : Option (List SessionRecord))
    (h : store (fetchSessions.query user_id role_id)
      = .returned { data := d, error := none }) :
    (∀ D : List SessionRecord, d = some D →
        (fetchSessions store user_id st role_id).sessions = D) ∧
      (d = none → (fetchSessions store user_id st role_id).sessions = []) ∧
      (fetchSessions store user_id st role_id).error = none ∧
      (fetchSessions store user_id st role_id).loading = false := by
  rw [fetch_success store user_id role_id st d h]
  refine ⟨?_, ?_, rfl, rfl⟩
  · intro D hD
    subst hD
    rfl
  · intro hd
    subst hd
    rfl

/-- The scenario of C5: role identifier 1, two records returned. -/
theorem fetchSessions_success_replaces_sessions_witness :
    twoRows (fetchSessions.query (.number (.fin 42)) JSValue.one)
        = .returned { data := some [sampleRow 11, sampleRow 10], error := none } ∧
    ((∀ D : List SessionRecord, some [sampleRow 11, sampleRow 10] = some D →
        (fetchSessions twoRows (.number (.fin 42)) stale JSValue.one).sessions = D) ∧
      (some [sampleRow 11, sampleRow 10] = none →
        (fetchSessions twoRows (.number (.fin 42)) stale JSValue.one).sessions = []) ∧
      (fetchSessions twoRows (.number (.fin 42)) stale JSValue.one).error = none ∧
      (fetchSessions twoRows (.number (.fin 42)) stale JSValue.one).loading = false) :=
  ⟨rfl, fetchSessions_success_replaces_sessions twoRows (.number (.fin 42)) JSValue.one stale
    (some [sampleRow 11, sampleRow 10]) rfl⟩

theorem scenario_tutor_two_records :
    fetchSessions twoRows (.number (.fin 42)) DashboardState.initial JSValue.one
      = { loading := false, sessions := [sampleRow 11, sampleRow 10], error := none } :=
  fetch_success twoRows _ _ _ (some [sampleRow 11, sampleRow 10]) rfl

theorem isStudent_iff (role_id : JSValue) :
    fetchSessions.isStudent role_id = false ↔ role_id = JSValue.one := by
  unfold fetchSessions.isStudent JSValue.one
  cases role_id with
  | number n => cases n <;> simp [JSValue.strictEquals]
  | _ => simp [JSValue.strictEquals]

theorem query_eq (user_id role_id : JSValue) :
    fetchSessions.query user_id role_id
      = if role_id = JSValue.one then tutorQuery user_id else studentQuery user_id := by
  by_cases h : role_id = JSValue.one
  · have hs := (isStudent_iff role_id).mpr h
    rw [if_pos h]
    simp [fetchSessions.query, fetchSessions.selectFields, fetchSessions.filterColumn, hs,
      tutorQuery]
  · have hs : fetchSessions.isStudent role_id = true := by
      cases hb : fetchSessions.isStudent role_id
      · exact absurd ((isStudent_iff role_id).mp hb) h
      · rfl
    rw [if_neg h]
    simp [fetchSessions.query, fetchSessions.selectFields, fetchSessions.filterColumn, hs,
      studentQuery]

theorem queriesOf_afterAwait (c : Completion) : queriesOf (fetchSessions.afterAwait c) = [] := by
  rcases c with ⟨d, e⟩ | ⟨site, m⟩
  · cases e <;> cases d <;> rfl
  · rfl

theorem queriesOf_append (xs ys : List Action) :
    queriesOf (xs ++ ys) = queriesOf xs ++ queriesOf ys := by
  induction xs with
  | nil => rfl
  | cons a rest ih => cases a <;> simp [queriesOf, ih]

theorem queriesOf_actions (store : Query → Completion) (user_id role_id : JSValue) :
    queriesOf (fetchSessions.actions store user_id role_id)
      = queriesOf (fetchSessions.issueRead (fetchSessions.query user_id role_id)
          (store (fetchSessions.query user_id role_id))) := by
  simp [fetchSessions.actions, queriesOf, queriesOf_append, queriesOf_afterAwait]

theorem queriesOf_issueRead_mem (q : Query) (c : Completion) :
    ∀ r ∈ queriesOf (fetchSessions.issueRead q c), r = q := by
  rcases c with r | ⟨site, m⟩
  · simp [fetchSessions.issueRead, queriesOf]
  · cases site <;> simp [fetchSessions.issueRead, queriesOf]

theorem queriesOf_issueRead_sent (q : Query) (c : Completion)
    (h : ∀ m, c ≠ Completion.threw ThrowSite.building m) :
    queriesOf (fetchSessions.issueRead q c) = [q] := by
  rcases c with r | ⟨site, m⟩
  · rfl
  · cases site
    · exact absurd rfl (h m)
    · rfl

theorem queriesOf_issueRead_unsent (q : Query) (c : Completion)
    (h : ∃ m, c = Completion.threw ThrowSite.building m) :
    queriesOf (fetchSessions.issueRead q c) = [] := by
  obtain ⟨m, rfl⟩ := h
  rfl

theorem tutorQuery_columns (user_id : JSValue) :
    (tutorQuery user_id).columns
      = ["session_id", "start_time", "end_time", "student_id", "subject", "session_date"] := by
  show columnsAux
    "session_id, start_time, end_time, student_id, subject, session_date".data [] = _
  decide

theorem studentQuery_columns (user_id : JSValue) :
    (studentQuery user_id).columns
      = ["session_id", "start_time", "end_time", "tutor_id", "subject", "session_date"] := by
  show columnsAux
    "session_id, start_time, end_time, tutor_id, subject, session_date".data [] = _
  decide

/-- C6. For every role identifier, the read `fetchSessions` builds is
tutor-shaped iff the identifier is the number 1 and student-shaped otherwise:
the tutor shape selects session_id, start_time, end_time, student_id, subject,
session_date of table sessions filtered on tutor_id = caller id; the student
shape selects tutor_id in place of student_id and filters on student_id =
caller id. That read is the only one ever issued: exactly once, unless the
builder chain throws before anything is sent, and then no read is issued. -/
theorem fetchSessions_query_by_role (store : Query → Completion)
    (user_id role_id : JSValue) :
    (∀ q ∈ queriesOf (fetchSessions.actions store user_id role_id),
        q = if role_id = JSValue.number (JSNumber.fin 1) then tutorQuery user_id
            else studentQuery user_id) ∧
      ((∀ m, store (fetchSessions.query user_id role_id)
            ≠ Completion.threw ThrowSite.building m) →
        queriesOf (fetchSessions.actions store user_id role_id)
          = [if role_id = JSValue.number (JSNumber.fin 1) then tutorQuery user_id
             else studentQuery user_id]) ∧
      ((∃ m, store (fetchSessions.query user_id role_id)
            = Completion.threw ThrowSite.building m) →
        queriesOf (fetchSessions.actions store user_id role_id) = []) ∧
      (fetchSessions.query user_id role_id = tutorQuery user_id
        ↔ role_id = JSValue.number (JSNumber.fin 1)) ∧
      (fetchSessions.query user_id role_id = studentQuery user_id
        ↔ role_id ≠ JSValue.number (JSNumber.fin 1)) ∧
      (tutorQuery user_id).table = "sessions" ∧
      (tutorQuery user_id).columns
        = ["session_id", "start_time", "end_time", "student_id", "subject", "session_date"] ∧
      (tutorQuery user_id).eqColumn = "tutor_id" ∧
      (tutorQuery user_id).eqValue = user_id ∧
      (studentQuery user_id).table = "sessions" ∧
      (studentQuery user_id).columns
        = ["session_id", "start_time", "end_time", "tutor_id", "subject", "session_date"] ∧
      (studentQuery user_id).eqColumn = "student_id" ∧
      (studentQuery user_id).eqValue = user_id := by
  have hq := query_eq user_id role_id
  have hne : tutorQuery user_id ≠ studentQuery user_id := by
    intro h
    have := congrArg Query.eqColumn h
    simp [tutorQuery, studentQuery] at this
  have hone : JSValue.one = JSValue.number (JSNumber.fin 1) := rfl
  rw [hone] at hq
  have ha := queriesOf_actions store user_id role_id
  refine ⟨?_, ?_, ?_, ?_, ?_, rfl, tutorQuery_columns user_id, rfl, rfl, rfl,
    studentQuery_columns user_id, rfl, rfl⟩
  · intro q hmem
    rw [ha] at hmem
    rw [← hq]
    exact queriesOf_issueRead_mem _ _ q hmem
  · intro hno
    rw [ha, queriesOf_issueRead_sent _ _ hno, hq]
  · intro hex
    rw [ha, queriesOf_issueRead_unsent _ _ hex]
  · rw [hq]
    by_cases h : role_id = JSValue.number (JSNumber.fin 1)
    · simp [h]
    · simp [h, Ne.symm hne]
  · rw [hq]
    by_cases h : role_id = JSValue.number (JSNumber.fin 1)
    · simp [h, hne]
    · simp [h]

theorem scenario_tutor_read_issued :
    queriesOf (fetchSessions.actions twoRows (.number (.fin 42)) JSValue.one)
      = [tutorQuery (.number (.fin 42))] := by
  decide

theorem scenario_builder_throws_no_read :
    queriesOf (fetchSessions.actions brokenClient (.number (.fin 42)) JSValue.one) = [] ∧
      fetchSessions brokenClient (.number (.fin 42)) stale JSValue.one
        = { loading := false, sessions := three, error := some "supabase is not configured" } :=
  ⟨by decide, fetch_threw brokenClient _ _ _ .building _ rfl⟩

theorem actions_cases (store : Query → Completion) (user_id role_id : JSValue) :
    ∃ mid : List Action,
      fetchSessions.actions store user_id role_id
        = Action.setLoading true :: (mid ++ [Action.setLoading false]) ∧
      ∀ (k : ℕ) (st : DashboardState), (run st (mid.take k)).loading = st.loading := by
  refine ⟨[Action.setError none]
    ++ fetchSessions.issueRead (fetchSessions.query user_id role_id)
        (store (fetchSessions.query user_id role_id))
    ++ fetchSessions.afterAwait (store (fetchSessions.query user_id role_id)), ?_, ?_⟩
  · simp [fetchSessions.actions]
  · intro k st
    rcases store (fetchSessions.query user_id role_id) with ⟨d, e⟩ | ⟨site, m⟩
    · cases e <;> cases d <;> rcases k with _ | _ | _ | _ | k <;>
        simp [fetchSessions.issueRead, fetchSessions.afterAwait, run, Action.apply]
    · cases site <;> rcases k with _ | _ | _ | _ | k <;>
        simp [fetchSessions.issueRead, fetchSessions.afterAwait, run, Action.apply]

/-- C7. On every path through `fetchSessions` (records, no records, a failure
reported by the store, an exception) the first thing done is to set loading to
true, loading stays true while the operation is under way, the last thing done
is to set loading to false, and loading is false when the operation exits. -/
theorem fetchSessions_loading_cleared (store : Query → Completion)
    (user_id role_id : JSValue) (st : DashboardState) :
    (fetchSessions.actions store user_id role_id).head? = some (Action.setLoading true) ∧
      (∀ n : ℕ, 0 < n → n < (fetchSessions.actions store user_id role_id).length →
        (run st ((fetchSessions.actions store user_id role_id).take n)).loading = true) ∧
      (fetchSessions.actions store user_id role_id).getLast? = some (Action.setLoading false) ∧
      (fetchSessions store user_id st role_id).loading = false := by
  obtain ⟨mid, hmid, hkeep⟩ := actions_cases store user_id role_id
  refine ⟨rfl, ?_, ?_, ?_⟩
  · intro n h0 hn
    rw [hmid] at hn ⊢
    simp only [List.length_cons, List.length_append, List.length_nil] at hn
    obtain ⟨k, rfl⟩ : ∃ k, n = k + 1 := ⟨n - 1, by omega⟩
    rw [List.take_succ_cons, List.take_append_of_le_length (by omega)]
    have h := hkeep k (Action.apply st (Action.setLoading true))
    simpa [run, Action.apply] using h
  · rw [hmid, ← List.cons_append, List.getLast?_append_of_ne_nil _ (by simp)]
    rfl
  · rw [run_actions]
    rfl

/-- C8. When an exception with message `m` is raised during the fetch, at
either site, `fetchSessions` ends with the error equal to `m` and the session
list as it was before, in the same state as after a failure reported by the
store with the same message. -/
theorem fetchSessions_exception (store failing : Query → Completion)
    (user_id role_id : JSValue) (st : DashboardState) (d : Option (List SessionRecord))
    (site : ThrowSite) (m : String)
    (h : store (fetchSessions.query user_id role_id) = .threw site m)
    (hf : failing (fetchSessions.query user_id role_id)
      = .returned { data := d, error := some { message := m } }) :
    (fetchSessions store user_id st role_id).error = some m ∧
      (fetchSessions store user_id st role_id).sessions = st.sessions ∧
      (fetchSessions store user_id st role_id).loading = false ∧
      fetchSessions store user_id st role_id = fetchSessions failing user_id st role_id := by
  rw [fetch_threw store user_id role_id st site m h,
    fetch_failure failing user_id role_id st d m hf]
  exact ⟨rfl, rfl, rfl, rfl⟩

/-- An instance of C8: the read throws "network unreachable". -/
theorem fetchSessions_exception_witness :
    throwingStore (fetchSessions.query (.number (.fin 42)) (.number (.fin 2)))
        = .threw .awaiting "network unreachable" ∧
    unreachableStore (fetchSessions.query (.number (.fin 42)) (.number (.fin 2)))
        = .returned { data := none, error := some { message := "network unreachable" } } ∧
    ((fetchSessions throwingStore (.number (.fin 42)) stale (.number (.fin 2))).error
        = some "network unreachable" ∧
      (fetchSessions throwingStore (.number (.fin 42)) stale (.number (.fin 2))).sessions
        = stale.sessions ∧
      (fetchSessions throwingStore (.number (.fin 42)) stale (.number (.fin 2))).loading
        = false ∧
      fetchSessions throwingStore (.number (.fin 42)) stale (.number (.fin 2))
        = fetchSessions unreachableStore (.number (.fin 42)) stale (.number (.fin 2))) :=
  ⟨rfl, rfl, fetchSessions_exception throwingStore unreachableStore (.number (.fin 42))
    (.number (.fin 2)) stale none .awaiting "network unreachable" rfl rfl⟩

/-- C9. Fetching is idempotent: against a store that answers the same way both
times, a second `fetchSessions` leaves the session list, the error and the
loading flag exactly as the first one left them, whatever the initial state,
the role identifier and the store. -/
theorem fetchSessions_idempotent (store : Query → Completion)
    (user_id role_id : JSValue) (st : DashboardState) :
    fetchSessions store user_id (fetchSessions store user_id st role_id) role_id
      = fetchSessions store user_id st role_id := by
  rcases hc : store (fetchSessions.query user_id role_id) with ⟨d, e⟩ | ⟨site, m⟩
  · cases e with
    | some e =>
      obtain ⟨msg⟩ := e
      rw [fetch_failure store user_id role_id st d msg hc,
        fetch_failure store user_id role_id _ d msg hc]
    | none =>
      rw [fetch_success store user_id role_id st d hc,
        fetch_success store user_id role_id _ d hc]
  · rw [fetch_threw store user_id role_id st site m hc,
      fetch_threw store user_id role_id _ site m hc]

end Dashboard
